import Mathlib

/-!
Shallow embedding of `concept_library.py` (classes `ConceptLibrary` and
`SQLiteStorage`) and proofs about its behavior.

Modelling conventions:
  * Python floats are modelled as rationals (`ℚ`); no claim here depends on
    floating-point rounding.
  * JSON-compatible values (`json.dumps` / `json.loads`) are modelled by the
    `Json` inductive; serialisation round-trip is the identity on this type.
  * The SQLite table `concepts (id INTEGER PRIMARY KEY AUTOINCREMENT, vector
    TEXT, metadata TEXT, raw_text TEXT)` is modelled by `DB`: a list of rows
    plus the AUTOINCREMENT sequence counter `seq` (SQLite assigns
    `seq + 1` to each new row and never reuses ids).  A possible durable-write
    failure (`INSERT`/`commit` raising) is modelled by the flag `writable`.
  * The Annoy index object is modelled by `IndexState`; its internals are not
    part of the repository, so its operations (`add_item`, `build`, `load`,
    `get_nns_by_vector`) are modelled from the spec where marked.
  * Python exceptions are modelled with `Option`/an error component: a function
    that can raise returns its (possibly mutated) state together with
    `Option Err`.
-/

namespace ConceptLib

/-- JSON-compatible values: the tagged union handled by `json.dumps` /
`json.loads` (null, booleans, numbers, strings, arrays, string-keyed objects).
On this type the dump/load round-trip of the Python code is the identity. -/
inductive Json where
  | null : Json
  | bool (b : Bool) : Json
  | num (q : ℚ) : Json
  | str (s : String) : Json
  | arr (items : List Json) : Json
  | obj (fields : List (String × Json)) : Json
  deriving Repr

/-- Embedding vectors: fixed-length sequences of numbers. -/
abbrev Vec := List ℚ

/-- Serialisation of a vector as done by `json.dumps(record['vector'])`. -/
def encodeVec (v : Vec) : Json :=
  Json.arr (v.map Json.num)

/-- Deserialisation of a JSON array of numbers (`np.array(json.loads(s))` /
`json.loads(row[1])`); fails on anything that is not a list of numbers. -/
def decodeNums : List Json → Option Vec
  | [] => some []
  | Json.num q :: js => (decodeNums js).map (fun v => q :: v)
  | _ => none

/-- Deserialisation of a stored vector column. -/
def decodeVec : Json → Option Vec
  | Json.arr l => decodeNums l
  | _ => none

/-- One row of the `concepts` table: the id plus the serialised vector, the
serialised metadata and the raw text exactly as stored. -/
structure Row where
  id : Nat
  vector : Json
  metadata : Json
  raw_text : String
  deriving Repr

/-- The durable `concepts` table: rows plus the SQLite AUTOINCREMENT sequence
counter (the largest id ever assigned).  `writable` models whether the
underlying disk write can succeed (False = `INSERT`/`commit` raises). -/
structure DB where
  rows : List Row
  seq : Nat
  writable : Bool
  deriving Repr

/-- Well-formedness of the table as SQLite maintains it: every row id was
assigned by the sequence counter, hence is at most `seq`. -/
def WF (db : DB) : Prop :=
  ∀ r ∈ db.rows, r.id ≤ db.seq

instance (db : DB) : Decidable (WF db) :=
  List.decidableBAll _ db.rows

/-- `SQLiteStorage.store`: `INSERT INTO concepts (vector, metadata, raw_text)
VALUES (?, ?, ?)` followed by `commit`, returning `cursor.lastrowid`.
AUTOINCREMENT assigns `seq + 1`.  If the durable write fails the exception
propagates and no row is added (`none`). -/
def DB.store (db : DB) (v : Vec) (meta : Json) (text : String) : Option (Nat × DB) :=
  if db.writable then
    some (db.seq + 1,
      { rows := db.rows ++ [⟨db.seq + 1, encodeVec v, meta, text⟩],
        seq := db.seq + 1,
        writable := db.writable })
  else none

/-- `SELECT * FROM concepts WHERE id = ?` followed by `fetchone`. -/
def DB.fetchRow (db : DB) (i : Nat) : Option Row :=
  db.rows.find? (fun r => r.id == i)

/-- A hydrated record as returned by `search`: id, deserialised vector,
deserialised metadata, raw text. -/
structure Record where
  id : Nat
  vector : Vec
  metadata : Json
  raw_text : String
  deriving Repr

/-- Hydration of one row (`json.loads` on the vector and metadata columns);
raises (models as `none`) if the stored vector text is not a numeric array. -/
def hydrateRow (row : Row) : Option Record :=
  (decodeVec row.vector).map (fun v => ⟨row.id, v, row.metadata, row.raw_text⟩)

/-- Point lookup plus hydration: the `fetch` operation of the spec, realised in
the code by the per-id `SELECT` inside `SQLiteStorage.search`. -/
def fetchRec (db : DB) (i : Nat) : Option Record :=
  (db.fetchRow i).bind hydrateRow

/-- The in-memory Annoy index object (`AnnoyIndex(dim, metric)`): its
dimensionality, metric string, items added so far and whether `build` has been
called on it. -/
structure IndexState where
  dim : Nat
  metric : String
  items : List (Nat × Vec)
  built : Bool
  deriving Repr

/-- `AnnoyIndex(dim, metric)`: a fresh, empty, unbuilt index. -/
def annoyNew (dim : Nat) (metric : String) : IndexState :=
  ⟨dim, metric, [], false⟩

/-- Exceptions the modelled code can raise. -/
inductive Err where
  | decodeFailure : Err
  | wrongDim : Err
  | writeFailure : Err
  deriving Repr, DecidableEq

/-- `annoy_index.add_item(id, vector)`: raises if the vector length differs
from the index dimensionality. -/
def IndexState.addItem (idx : IndexState) (i : Nat) (v : Vec) : Option IndexState :=
  if v.length = idx.dim then
    some { idx with items := idx.items ++ [(i, v)] }
  else none

/-- Modelled from the spec: `annoy_index.load(path)` — the Annoy library's
loader is not part of the repository.  Per §4.2/§6 of the spec, `load` fails
cleanly (an `OSError`, modelled as `none`) when the persisted file was built
for a different dimensionality; on success the index holds the file's items
and is queryable. -/
def annoyLoad (idx : IndexState) (file : IndexState) : Option IndexState :=
  if file.dim = idx.dim then
    some { idx with items := file.items, built := true }
  else none

/-- Squared Euclidean norm of a vector. -/
def sqNorm (v : Vec) : ℚ :=
  (v.map (fun x => x * x)).sum

/-- Dot product (zip truncates, as both vectors have the index dimension in
every reachable state). -/
def dotProd (u v : Vec) : ℚ :=
  (List.zipWith (fun a b => a * b) u v).sum

/-- Rational sort key that is order-isomorphic to Annoy's angular distance
`sqrt(2*(1 - cos(u,v)))`: angular distance is strictly decreasing in
`cos(u,v)`, and `cos` is strictly increasing in the signed squared cosine
`sign(⟨u,v⟩) * ⟨u,v⟩² / (‖u‖²‖v‖²)`, so sorting by the negated signed squared
cosine (ascending) orders items nearest-first without leaving `ℚ`. -/
def angKey (u v : Vec) : ℚ :=
  let a := dotProd u v
  let p := sqNorm u * sqNorm v
  if p = 0 then 0
  else if 0 ≤ a then -(a * a) / p
  else (a * a) / p

/-- Squared Euclidean distance: order-isomorphic to Euclidean distance. -/
def euKey (u v : Vec) : ℚ :=
  sqNorm (List.zipWith (fun a b => a - b) u v)

/-- Sort key of one stored item for a query vector under the index's
configured metric. -/
def itemKey (metric : String) (q : Vec) (item : Nat × Vec) : ℚ :=
  if metric = "angular" then angKey q item.2 else euKey q item.2

/-- Nearer-or-equally-near ordering of stored items for a query vector. -/
def keyLE (metric : String) (q : Vec) (a b : Nat × Vec) : Prop :=
  itemKey metric q a ≤ itemKey metric q b

instance (metric : String) (q : Vec) : DecidableRel (keyLE metric q) :=
  fun a b => inferInstanceAs (Decidable (itemKey metric q a ≤ itemKey metric q b))

instance (metric : String) (q : Vec) : IsTotal (Nat × Vec) (keyLE metric q) :=
  ⟨fun a b => le_total (itemKey metric q a) (itemKey metric q b)⟩

instance (metric : String) (q : Vec) : IsTrans (Nat × Vec) (keyLE metric q) :=
  ⟨fun _ _ _ h h' => le_trans h h'⟩

/-- Modelled from the spec: `annoy_index.get_nns_by_vector(vector, k)` — the
Annoy search itself is not part of the repository.  Per §4.2 it returns up to
`k` ids ordered nearest-first under the configured metric (here realised
exactly rather than approximately, which only strengthens ANN semantics), and
it requires a built index (querying an unbuilt index raises, modelled as
`none`). -/
def annoyQuery (idx : IndexState) (q : Vec) (k : Nat) : Option (List Nat) :=
  if idx.built then
    some (((idx.items.insertionSort (keyLE idx.metric q)).take k).map Prod.fst)
  else none

/-- The `SQLiteStorage` object: the table, the configured embedding
dimensionality and tree count, the current in-memory Annoy index, and the
persisted index file at `db_path + '.annoy'` (if present). -/
structure StorageState where
  db : DB
  embedding_dim : Nat
  nTrees : Nat
  annoy : IndexState
  disk : Option IndexState
  deriving Repr

/-- The item-insertion loop of `_build_annoy_index`: for each row,
`json.loads` the vector column and `add_item` it.  An undecodable vector or a
wrong-length vector raises; the partially filled index is what the object is
left with. -/
def addAll (idx : IndexState) : List Row → IndexState × Option Err
  | [] => (idx, none)
  | row :: rest =>
    match decodeVec row.vector with
    | none => (idx, some Err.decodeFailure)
    | some v =>
      match idx.addItem row.id v with
      | none => (idx, some Err.wrongDim)
      | some idx' => addAll idx' rest

/-- `SQLiteStorage._build_annoy_index`: unload and replace the index with a
fresh `AnnoyIndex(self.embedding_dim, 'angular')` (the metric string is
hard-coded), insert every stored row, then `build` and `save`.  A failure
while inserting leaves the object holding the fresh, partially filled,
unbuilt index. -/
def buildAnnoyIndex (s : StorageState) : StorageState × Option Err :=
  let idx0 := annoyNew s.embedding_dim "angular"
  match addAll idx0 s.db.rows with
  | (idx, some e) => ({ s with annoy := idx }, some e)
  | (idx, none) =>
    let builtIdx := { idx with built := true }
    ({ s with annoy := builtIdx, disk := some builtIdx }, none)

/-- `SQLiteStorage._load_annoy_index`: if the index file exists, try to load
it; on `OSError`/`FileNotFoundError` (including the spec-modelled
dimensionality mismatch) fall back to a full rebuild. -/
def loadAnnoyIndex (s : StorageState) : StorageState × Option Err :=
  match s.disk with
  | some file =>
    match annoyLoad s.annoy file with
    | some idx => ({ s with annoy := idx }, none)
    | none => buildAnnoyIndex s
  | none => buildAnnoyIndex s

/-- `SQLiteStorage.__init__(db_path, embedding_dim, annoy_metric, n_trees)`:
connect to the table (schema creation is idempotent and not otherwise
modelled), create `AnnoyIndex(embedding_dim, annoy_metric)`, then
`_load_annoy_index`. -/
def storageInit (db : DB) (dim : Nat) (metric : String) (nTrees : Nat)
    (disk : Option IndexState) : StorageState × Option Err :=
  loadAnnoyIndex
    { db := db, embedding_dim := dim, nTrees := nTrees,
      annoy := annoyNew dim metric, disk := disk }

/-- `SQLiteStorage.update_annoy_index`: a full rebuild, ignoring the new
record's id and vector. -/
def updateAnnoyIndex (s : StorageState) : StorageState × Option Err :=
  buildAnnoyIndex s

/-- The hydration loop of `SQLiteStorage.search`: for each neighbor id,
`SELECT` the row; a missing row is skipped, a present but undecodable row
raises. -/
def hydrateAll (db : DB) : List Nat → Option (List Record)
  | [] => some []
  | i :: is =>
    match db.fetchRow i with
    | none => hydrateAll db is
    | some row =>
      match hydrateRow row with
      | none => none
      | some r => (hydrateAll db is).map (fun rs => r :: rs)

/-- `SQLiteStorage.search(query_vector, top_k)`: nearest-neighbor ids from the
Annoy index, then hydrate each id that has a row. -/
def searchStorage (s : StorageState) (q : Vec) (k : Nat) : Option (List Record) :=
  match annoyQuery s.annoy q k with
  | none => none
  | some ids => hydrateAll s.db ids

/-- The `ConceptLibrary` facade: the external encoder collaborator and the
storage backend. -/
structure LibState where
  encode : String → Vec
  storage : StorageState

/-- `ConceptLibrary.add_interaction(user_input, metadata)`: encode, store,
rebuild the index, return the new id.  A raising step propagates: a failed
store leaves everything untouched and issues no id; a failed rebuild has
stored the record but returns no id. -/
def addInteraction (lib : LibState) (text : String) (meta : Json) :
    Option Nat × LibState × Option Err :=
  let v := lib.encode text
  match lib.storage.db.store v meta text with
  | none => (none, lib, some Err.writeFailure)
  | some (newId, db2) =>
    match buildAnnoyIndex { lib.storage with db := db2 } with
    | (s2, some e) => (none, { lib with storage := s2 }, some e)
    | (s2, none) => (some newId, { lib with storage := s2 }, none)

/-- `ConceptLibrary.search(query, top_k)`: encode the query and search the
storage backend. -/
def searchLib (lib : LibState) (query : String) (k : Nat) : Option (List Record) :=
  searchStorage lib.storage (lib.encode query) k

/-- A sequence of `store` calls, collecting the ids of the successful ones. -/
def storeAll (db : DB) : List (Vec × Json × String) → List Nat × DB
  | [] => ([], db)
  | (v, meta, text) :: rest =>
    match db.store v meta text with
    | none => storeAll db rest
    | some (i, db') =>
      let (ids, db'') := storeAll db' rest
      (i :: ids, db'')

/-! Concrete states used to exercise the definitions. -/

/-- A storage state holding a built, queryable index over item `1`, while the
table's row `1` has a corrupt (non-numeric) vector column. -/
def cexState : StorageState :=
  ⟨⟨[⟨1, Json.str "bad", Json.null, "x"⟩], 1, true⟩, 2, 10,
    ⟨2, "angular", [(1, [1, 0])], true⟩, none⟩

/-- A persisted index file of dimensionality 2. -/
def mismatchFile : IndexState :=
  ⟨2, "angular", [(1, [1, 0])], true⟩

/-- A fresh library over an empty writable table, with a stub encoder of
dimensionality 2. -/
def lib0 : LibState :=
  ⟨fun _ => [1, 0], ⟨⟨[], 0, true⟩, 2, 10, annoyNew 2 "angular", none⟩⟩

/-- The library state after one interaction is added to `lib0`. -/
def lib0' : LibState :=
  (addInteraction lib0 "hi" Json.null).2.1

/-- A table holding one well-formed record under id `1`. -/
def db1 : DB :=
  ⟨[⟨1, encodeVec [1, 0], Json.null, "a"⟩], 1, true⟩

/-- The table `db1` after one further `store`. -/
def db1' : DB :=
  ⟨db1.rows ++ [⟨2, encodeVec [1, 1], Json.null, "b"⟩], 2, true⟩

/-- A built index over two orthogonal items. -/
def idx1 : IndexState :=
  ⟨2, "angular", [(1, [1, 0]), (2, [0, 1])], true⟩

/-! Helper lemmas. -/

/-- Vector serialisation round-trip on lists of numbers. -/
theorem decodeNums_map_num (v : Vec) : decodeNums (v.map Json.num) = some v := by
  induction v with
  | nil => rfl
  | cons q v ih => simp [decodeNums, ih]

/-- Vector serialisation round-trip: `json.loads(json.dumps(v)) = v`. -/
theorem decodeVec_encodeVec (v : Vec) : decodeVec (encodeVec v) = some v := by
  simp [encodeVec, decodeVec, decodeNums_map_num]

/-- The item-insertion loop never changes the build flag, the dimensionality
or the metric of the index it fills. -/
theorem addAll_fields (rows : List Row) (idx : IndexState) :
    ((addAll idx rows).1).built = idx.built ∧ ((addAll idx rows).1).dim = idx.dim ∧
      ((addAll idx rows).1).metric = idx.metric := by
  induction rows generalizing idx with
  | nil => exact ⟨rfl, rfl, rfl⟩
  | cons row rest ih =>
    cases hd : decodeVec row.vector with
    | none => simp [addAll, hd]
    | some v =>
      cases ha : idx.addItem row.id v with
      | none => simp [addAll, hd, ha]
      | some idx2 =>
        have hfields : idx2.built = idx.built ∧ idx2.dim = idx.dim ∧
            idx2.metric = idx.metric := by
          simp only [IndexState.addItem] at ha
          split at ha
          · cases ha; exact ⟨rfl, rfl, rfl⟩
          · cases ha
        simp only [addAll, hd, ha]
        obtain ⟨h1, h2, h3⟩ := ih idx2
        exact ⟨h1.trans hfields.1, h2.trans hfields.2.1, h3.trans hfields.2.2⟩

/-- On success, the item-insertion loop appends exactly the ids of the given
rows to the index. -/
theorem addAll_ok (rows : List Row) (idx idx' : IndexState)
    (h : addAll idx rows = (idx', none)) :
    idx'.items.map Prod.fst = idx.items.map Prod.fst ++ rows.map Row.id := by
  induction rows generalizing idx with
  | nil =>
    simp only [addAll, Prod.mk.injEq] at h
    rw [← h.1]
    simp
  | cons row rest ih =>
    cases hd : decodeVec row.vector with
    | none => simp [addAll, hd] at h
    | some v =>
      cases ha : idx.addItem row.id v with
      | none => simp [addAll, hd, ha] at h
      | some idx2 =>
        simp only [addAll, hd, ha] at h
        have hit : idx2.items = idx.items ++ [(row.id, v)] := by
          simp only [IndexState.addItem] at ha
          split at ha
          · cases ha; rfl
          · cases ha
        rw [ih idx2 h, hit]
        simp

/-- On success, `_build_annoy_index` leaves the table unchanged and installs a
built index whose ids are exactly the table's row ids. -/
theorem buildAnnoyIndex_ok (s s' : StorageState) (h : buildAnnoyIndex s = (s', none)) :
    s'.db = s.db ∧ s'.annoy.built = true ∧
      s'.annoy.items.map Prod.fst = s.db.rows.map Row.id := by
  unfold buildAnnoyIndex at h
  cases haa : addAll (annoyNew s.embedding_dim "angular") s.db.rows with
  | mk idx e =>
    cases e with
    | none =>
      simp only [haa, Prod.mk.injEq] at h
      rw [← h.1]
      refine ⟨rfl, rfl, ?_⟩
      have := addAll_ok s.db.rows (annoyNew s.embedding_dim "angular") idx haa
      simpa [annoyNew] using this
    | some err => simp [haa] at h

/-- On failure, `_build_annoy_index` leaves the object holding an unbuilt
index over the same table. -/
theorem buildAnnoyIndex_err (s s' : StorageState) (e : Err)
    (h : buildAnnoyIndex s = (s', some e)) :
    s'.db = s.db ∧ s'.annoy.built = false := by
  unfold buildAnnoyIndex at h
  cases haa : addAll (annoyNew s.embedding_dim "angular") s.db.rows with
  | mk idx e' =>
    cases e' with
    | none => simp [haa] at h
    | some err =>
      simp only [haa, Prod.mk.injEq] at h
      rw [← h.1]
      refine ⟨rfl, ?_⟩
      have := (addAll_fields s.db.rows (annoyNew s.embedding_dim "angular")).1
      rw [haa] at this
      simpa [annoyNew] using this

/-- Querying an unbuilt index raises (returns no result list). -/
theorem annoyQuery_unbuilt (idx : IndexState) (h : idx.built = false)
    (q : Vec) (k : Nat) : annoyQuery idx q k = none := by
  simp [annoyQuery, h]

/-- `find?` on an appended list returns the hit found in the left part. -/
theorem find?_append_left {α : Type} (p : α → Bool) (l₁ l₂ : List α) (x : α)
    (h : l₁.find? p = some x) : (l₁ ++ l₂).find? p = some x := by
  simp [List.find?_append, h]

/-- `find?` on an appended list continues right when the left part misses. -/
theorem find?_append_none {α : Type} (p : α → Bool) (l₁ l₂ : List α)
    (h : l₁.find? p = none) : (l₁ ++ l₂).find? p = l₂.find? p := by
  simp [List.find?_append, h]

/-! Claim theorems. -/

/-- C2 (code bug): the similarity metric is NOT fixed at construction.  A
storage constructed with `annoy_metric = 'euclidean'` that rebuilds its index
at startup (no persisted file) ends up with an index whose metric is the
hard-coded `'angular'` of `_build_annoy_index`, diverging from the metric the
instance was constructed with. -/
theorem metric_not_fixed_at_construction :
    ((storageInit ⟨[], 0, true⟩ 3 "euclidean" 10 none).1).annoy.metric = "angular" ∧
      "euclidean" ≠ "angular" :=
  ⟨rfl, by decide⟩

/-- C3 counterexample: a startup against a persisted index file of
dimensionality 2 under an encoder/storage dimensionality of 3 reports no
failure at all (error component `none`): the failing load is swallowed and a
rebuild runs, so the mismatch is silently ignored rather than surfaced. -/
theorem dim_mismatch_not_surfaced :
    (storageInit ⟨[], 0, true⟩ 3 "angular" 10 (some mismatchFile)).2 = none ∧
      mismatchFile.dim ≠ 3 :=
  ⟨rfl, by decide⟩

/-- C3 (amended): a dimensionality mismatch between the configured embedding
dimension and the persisted index file is never surfaced as a distinct
configuration failure at startup; the failed load is silently recovered by
falling back to a full index rebuild. -/
theorem dim_mismatch_falls_back_to_rebuild (db : DB) (dim : Nat) (metric : String)
    (nT : Nat) (file : IndexState) (h : file.dim ≠ dim) :
    storageInit db dim metric nT (some file) =
      buildAnnoyIndex ⟨db, dim, nT, annoyNew dim metric, some file⟩ := by
  simp [storageInit, loadAnnoyIndex, annoyLoad, annoyNew, h]

/-- C3 witness: the amended fallback behavior at a concrete mismatched
startup. -/
theorem dim_mismatch_falls_back_to_rebuild_witness :
    storageInit ⟨[], 0, true⟩ 3 "angular" 10 (some mismatchFile) =
      buildAnnoyIndex ⟨⟨[], 0, true⟩, 3, 10, annoyNew 3 "angular", some mismatchFile⟩ :=
  dim_mismatch_falls_back_to_rebuild ⟨[], 0, true⟩ 3 "angular" 10 mismatchFile (by decide)

/-- C6: across any sequence of `store` calls, the successfully issued ids are
strictly increasing (hence pairwise distinct) and all strictly greater than
the AUTOINCREMENT sequence value at the start, so none repeats an id issued
earlier in the store's lifetime. -/
theorem store_ids_monotonic (db : DB) (l : List (Vec × Json × String)) :
    ((storeAll db l).1).Sorted (· < ·) ∧
      ((storeAll db l).1).Pairwise (· ≠ ·) ∧
      ∀ i ∈ (storeAll db l).1, db.seq < i := by
  have main : ((storeAll db l).1).Sorted (· < ·) ∧ ∀ i ∈ (storeAll db l).1, db.seq < i := by
    induction l generalizing db with
    | nil => exact ⟨List.sorted_nil, by simp [storeAll]⟩
    | cons x rest ih =>
      obtain ⟨v, meta, text⟩ := x
      by_cases hw : db.writable
      · have hstep :
            storeAll db ((v, meta, text) :: rest) =
              ((db.seq + 1) ::
                  (storeAll ⟨db.rows ++ [⟨db.seq + 1, encodeVec v, meta, text⟩],
                    db.seq + 1, true⟩ rest).1,
                (storeAll ⟨db.rows ++ [⟨db.seq + 1, encodeVec v, meta, text⟩],
                  db.seq + 1, true⟩ rest).2) := by
          simp [storeAll, DB.store, hw]
        obtain ⟨ihs, ihm⟩ :=
          ih ⟨db.rows ++ [⟨db.seq + 1, encodeVec v, meta, text⟩], db.seq + 1, true⟩
        rw [hstep]
        constructor
        · exact List.sorted_cons.mpr ⟨fun b hb => Nat.lt_of_succ_le (ihm b hb), ihs⟩
        · intro i hi
          rcases List.mem_cons.mp hi with h1 | h1
          · rw [h1]; exact Nat.lt_succ_self _
          · exact Nat.lt_of_succ_lt (ihm i h1)
      · have hstep : storeAll db ((v, meta, text) :: rest) = storeAll db rest := by
          simp [storeAll, DB.store, hw]
        rw [hstep]
        exact ih db
  exact ⟨main.1, main.1.imp (fun h => Nat.ne_of_lt h), main.2⟩

/-- C9: if the durable store step of `add_interaction` fails, no id is issued,
no rebuild is triggered, and the library state (table and index alike) is
completely unchanged. -/
theorem store_failure_no_rebuild_no_id (lib : LibState) (text : String) (meta : Json)
    (h : lib.storage.db.writable = false) :
    addInteraction lib text meta = (none, lib, some Err.writeFailure) := by
  simp [addInteraction, DB.store, h]

/-- C9 witness: a concrete non-writable library, where `add_interaction`
issues no id and leaves the state untouched. -/
theorem store_failure_no_rebuild_no_id_witness :
    addInteraction ⟨fun _ => [1, 0], ⟨⟨[], 0, false⟩, 2, 10, annoyNew 2 "angular", none⟩⟩
        "hi" Json.null =
      (none, ⟨fun _ => [1, 0], ⟨⟨[], 0, false⟩, 2, 10, annoyNew 2 "angular", none⟩⟩,
        some Err.writeFailure) :=
  store_failure_no_rebuild_no_id
    ⟨fun _ => [1, 0], ⟨⟨[], 0, false⟩, 2, 10, annoyNew 2 "angular", none⟩⟩ "hi" Json.null rfl

/-- C1 counterexample: from a state whose index is built and queryable over
item `1` but whose table row has a corrupt vector column, `_build_annoy_index`
fails partway — and afterwards the index is neither replaced by one over the
given items nor still queryable: the previously queryable index is gone
(items emptied, unbuilt, queries raise), so the build partially applied. -/
theorem build_failure_loses_previous_index :
    (buildAnnoyIndex cexState).2 = some Err.decodeFailure ∧
      annoyQuery cexState.annoy [1, 0] 1 = some [1] ∧
      annoyQuery (buildAnnoyIndex cexState).1.annoy [1, 0] 1 = none ∧
      (buildAnnoyIndex cexState).1.annoy.items = [] ∧
      (buildAnnoyIndex cexState).1.annoy.built = false :=
  ⟨rfl, rfl, rfl, rfl, rfl⟩

/-- C1 (amended): a successful `_build_annoy_index` fully replaces the index
with a built one over exactly the stored items; but a failing one does NOT
leave the previous index queryable — it leaves the instance holding a fresh
unbuilt index (only the items added before the failure), on which every query
raises. -/
theorem build_replaces_or_leaves_unbuilt (s : StorageState) :
    ((buildAnnoyIndex s).2 = none →
      (buildAnnoyIndex s).1.annoy.built = true ∧
        (buildAnnoyIndex s).1.annoy.items.map Prod.fst = s.db.rows.map Row.id) ∧
    (∀ e, (buildAnnoyIndex s).2 = some e →
      (buildAnnoyIndex s).1.annoy.built = false ∧
        ∀ q k, annoyQuery (buildAnnoyIndex s).1.annoy q k = none) := by
  constructor
  · intro h
    obtain ⟨-, h2, h3⟩ :=
      buildAnnoyIndex_ok s (buildAnnoyIndex s).1 (by rw [← h])
    exact ⟨h2, h3⟩
  · intro e h
    obtain ⟨-, h2⟩ :=
      buildAnnoyIndex_err s (buildAnnoyIndex s).1 e (by rw [← h])
    exact ⟨h2, annoyQuery_unbuilt _ h2⟩

/-- C1 witness: the failure branch of the amended statement at the concrete
corrupt state. -/
theorem build_replaces_or_leaves_unbuilt_witness :
    (buildAnnoyIndex cexState).1.annoy.built = false ∧
      annoyQuery (buildAnnoyIndex cexState).1.annoy [1, 0] 1 = none := by
  have h := (build_replaces_or_leaves_unbuilt cexState).2 Err.decodeFailure rfl
  exact ⟨h.1, h.2 [1, 0] 1⟩

/-- Anatomy of a successful `add_interaction`: the issued id is the next
sequence value, the new row is appended, and the rebuilt index covers exactly
the rows of the resulting table. -/
theorem addInteraction_ok (lib : LibState) (text : String) (meta : Json)
    (newId : Nat) (lib' : LibState)
    (h : addInteraction lib text meta = (some newId, lib', none)) :
    newId = lib.storage.db.seq + 1 ∧
      lib'.storage.db.rows = lib.storage.db.rows ++
        [⟨lib.storage.db.seq + 1, encodeVec (lib.encode text), meta, text⟩] ∧
      lib'.storage.db.seq = lib.storage.db.seq + 1 ∧
      lib'.storage.annoy.built = true ∧
      lib'.storage.annoy.items.map Prod.fst = lib'.storage.db.rows.map Row.id := by
  by_cases hw : lib.storage.db.writable
  · have hs : lib.storage.db.store (lib.encode text) meta text =
        some (lib.storage.db.seq + 1,
          ⟨lib.storage.db.rows ++
              [⟨lib.storage.db.seq + 1, encodeVec (lib.encode text), meta, text⟩],
            lib.storage.db.seq + 1, true⟩) := by
      simp [DB.store, hw]
    cases hb : buildAnnoyIndex
        ⟨⟨lib.storage.db.rows ++
              [⟨lib.storage.db.seq + 1, encodeVec (lib.encode text), meta, text⟩],
            lib.storage.db.seq + 1, true⟩,
          lib.storage.embedding_dim, lib.storage.nTrees, lib.storage.annoy,
          lib.storage.disk⟩ with
    | mk s2 e =>
      cases e with
      | some err =>
        have heq : addInteraction lib text meta = (none, ⟨lib.encode, s2⟩, some err) := by
          simp [addInteraction, hs, hb]
        rw [heq] at h
        simp at h
      | none =>
        have heq : addInteraction lib text meta =
            (some (lib.storage.db.seq + 1), ⟨lib.encode, s2⟩, none) := by
          simp [addInteraction, hs, hb]
        rw [heq] at h
        simp only [Prod.mk.injEq, Option.some.injEq] at h
        obtain ⟨hid, hlib, -⟩ := h
        obtain ⟨hdb, hbuilt, hids⟩ := buildAnnoyIndex_ok _ _ hb
        refine ⟨hid.symm, ?_, ?_, ?_, ?_⟩
        · rw [← hlib]
          show s2.db.rows = _
          rw [hdb]
        · rw [← hlib]
          show s2.db.seq = _
          rw [hdb]
        · rw [← hlib]
          exact hbuilt
        · rw [← hlib]
          show s2.annoy.items.map Prod.fst = s2.db.rows.map Row.id
          rw [hdb]
          exact hids
  · have heq : addInteraction lib text meta = (none, lib, some Err.writeFailure) := by
      simp [addInteraction, DB.store, hw]
    rw [heq] at h
    simp at h

/-- C4: whenever `add_interaction` returns an id, the ids held by the Annoy
index are exactly the ids of the rows in the record store (the full rebuild
ran over all records before the id was returned), so the two id sets
coincide. -/
theorem index_matches_store_after_add (lib : LibState) (text : String) (meta : Json)
    (newId : Nat) (lib' : LibState)
    (h : addInteraction lib text meta = (some newId, lib', none)) :
    lib'.storage.annoy.items.map Prod.fst = lib'.storage.db.rows.map Row.id :=
  (addInteraction_ok lib text meta newId lib' h).2.2.2.2

/-- C4 witness: after adding one interaction to a fresh library, the index ids
equal the store ids. -/
theorem index_matches_store_after_add_witness :
    lib0'.storage.annoy.items.map Prod.fst = lib0'.storage.db.rows.map Row.id :=
  index_matches_store_after_add lib0 "hi" Json.null 1 lib0' rfl

/-- C5: on a well-formed table, fetching the id returned by a successful
`add_interaction(text, metadata)` yields a record whose `raw_text` and
`metadata` (and vector) equal the inputs exactly — the store/hydrate
round-trip is lossless. -/
theorem add_fetch_round_trip (lib : LibState) (text : String) (meta : Json)
    (newId : Nat) (lib' : LibState)
    (hwf : WF lib.storage.db)
    (h : addInteraction lib text meta = (some newId, lib', none)) :
    fetchRec lib'.storage.db newId = some ⟨newId, lib.encode text, meta, text⟩ := by
  obtain ⟨hid, hrows, -, -, -⟩ := addInteraction_ok lib text meta newId lib' h
  subst hid
  have hnone : lib.storage.db.rows.find?
      (fun r => r.id == lib.storage.db.seq + 1) = none := by
    rw [List.find?_eq_none]
    intro r hr
    have := hwf r hr
    simp only [beq_iff_eq]
    omega
  simp only [fetchRec, DB.fetchRow, hrows]
  rw [find?_append_none _ _ _ hnone]
  simp [List.find?, hydrateRow, decodeVec_encodeVec]

/-- C5 witness: the round-trip at a concrete interaction on a fresh library. -/
theorem add_fetch_round_trip_witness :
    fetchRec lib0'.storage.db 1 = some ⟨1, [1, 0], Json.null, "hi"⟩ :=
  add_fetch_round_trip lib0 "hi" Json.null 1 lib0' (by decide) rfl

/-- C7: on a built index, a query always returns a result list (never an
error) of length `min k n` — at most `k` ids, as many as available when fewer
than `k` items exist, down to zero — and the list is the prefix of the items
arranged nearest-first under the index's configured metric. -/
theorem query_sorted_topk (idx : IndexState) (q : Vec) (k : Nat)
    (h : idx.built = true) :
    ∃ l, annoyQuery idx q k = some l ∧
      l.length = min k idx.items.length ∧
      ∃ os, idx.items.Perm os ∧ os.Sorted (keyLE idx.metric q) ∧
        l = (os.take k).map Prod.fst := by
  refine ⟨((idx.items.insertionSort (keyLE idx.metric q)).take k).map Prod.fst,
    ?_, ?_, idx.items.insertionSort (keyLE idx.metric q), ?_, ?_, rfl⟩
  · simp [annoyQuery, h]
  · rw [List.length_map, List.length_take,
      (List.perm_insertionSort (keyLE idx.metric q) idx.items).length_eq]
  · exact (List.perm_insertionSort (keyLE idx.metric q) idx.items).symm
  · exact List.sorted_insertionSort (keyLE idx.metric q) idx.items

/-- C7 witness: the query contract at a concrete built two-item index with
`k = 1`. -/
theorem query_sorted_topk_witness :
    ∃ l, annoyQuery idx1 [1, 0] 1 = some l ∧
      l.length = min 1 idx1.items.length ∧
      ∃ os, idx1.items.Perm os ∧ os.Sorted (keyLE idx1.metric [1, 0]) ∧
        l = (os.take 1).map Prod.fst :=
  query_sorted_topk idx1 [1, 0] 1 rfl

/-- C8: an id handed back by the index that has no matching row in the store
is silently dropped by the hydration loop of `search`: deleting such an id
from the neighbor list leaves the result — including its success/failure
status — exactly unchanged, so the remaining results are still returned and a
dangling id never fails the query. -/
theorem dangling_id_skipped (db : DB) (i : Nat) (xs ys : List Nat)
    (h : db.fetchRow i = none) :
    hydrateAll db (xs ++ i :: ys) = hydrateAll db (xs ++ ys) := by
  induction xs with
  | nil => simp [hydrateAll, h]
  | cons x xs ih =>
    cases hfr : db.fetchRow x with
    | none => simp [hydrateAll, hfr, ih]
    | some row =>
      cases hh : hydrateRow row with
      | none => simp [hydrateAll, hfr, hh]
      | some r => simp [hydrateAll, hfr, hh, ih]

/-- C8 witness: on a store that only holds id `1`, dropping the dangling id
`5` from the neighbor list leaves the hydrated results unchanged. -/
theorem dangling_id_skipped_witness :
    hydrateAll db1 ([1] ++ 5 :: []) = hydrateAll db1 ([1] ++ []) :=
  dangling_id_skipped db1 5 [1] [] rfl

/-- C10: `store` only appends — after a further successful `store`, fetching
any previously fetchable id yields exactly the record it yielded before (same
id, vector, metadata and raw text). -/
theorem store_preserves_existing_records (db : DB) (v : Vec) (meta : Json)
    (text : String) (newId : Nat) (db' : DB) (i : Nat) (r : Record)
    (hs : db.store v meta text = some (newId, db'))
    (hf : fetchRec db i = some r) :
    fetchRec db' i = some r := by
  simp only [DB.store] at hs
  split at hs
  · simp only [Option.some.injEq, Prod.mk.injEq] at hs
    obtain ⟨-, hdb⟩ := hs
    simp only [fetchRec, DB.fetchRow] at hf ⊢
    cases hrow : db.rows.find? (fun rw => rw.id == i) with
    | none => rw [hrow] at hf; cases hf
    | some row =>
      rw [hrow] at hf
      rw [← hdb]
      show ((db.rows ++ _).find? _).bind _ = some r
      rw [find?_append_left _ _ _ _ hrow]
      exact hf
  · cases hs

/-- C10 witness: the record under id `1` reads back unchanged after a second
`store`. -/
theorem store_preserves_existing_records_witness :
    fetchRec db1' 1 = some ⟨1, [1, 0], Json.null, "a"⟩ :=
  store_preserves_existing_records db1 [1, 1] Json.null "b" 2 db1' 1
    ⟨1, [1, 0], Json.null, "a"⟩ rfl rfl

end ConceptLib
